import Mathlib

/-!
# Verification of the wasabi funding-and-run control loop (`src/wasabi/src/run.ts`)

This file gives a shallow embedding of the funding control loop of the wasabi
load-generation harness: the budget estimator `getAgentRequiredFunding`, the
funding retry loop, the iteration loop of `run`, and the teardown refund, and
proves the specification claims about them.

Amounts are wei, embedded as `Nat` (JS `BigInt`s that are built from
non-negative inputs in the source).  The per-agent funding oracles
(`UniswapAgent.getRequiredFunding`, `ElementAgent.getRequiredFunding`,
`ManualPaymentAgent.getRequiredFunding`, `PaymentAgent.getRequiredFunding`)
live in modules outside the embedded file and are abstracted as parameters.
Asynchronous external behaviour (balance polls, transfer outcomes) is an
explicit environment oracle, and the potentially non-terminating loops are
fuel-indexed step functions returning `none` when the fuel runs out before
the loop exits.
-/

namespace Wasabi

/-- The funding requirement computed once per iteration:
`fundingThreshold` is the minimum balance needed, `toFund` the padded
top-up amount (the source's `{ fundingThreshold, toFund }`). -/
structure FundingSpec where
  fundingThreshold : Nat
  toFund : Nat
deriving Repr, DecidableEq

/-- The external per-agent funding oracles, abstracted: these functions are
implemented by the agent modules, not by `run.ts`.  `paymentRequiredFunding`
receives `assetIds[0]`, which is `undefined` (`none`) on an empty list. -/
structure AgentCosts where
  uniswapRequiredFunding : Nat → Nat
  elementRequiredFunding : Nat
  manualPaymentRequiredFunding : Nat
  paymentRequiredFunding : Option Nat → Nat → Nat

/-- A ledger-facing call made while estimating (the two agent oracles that
receive the sdk handle and may perform I/O). -/
inductive LedgerCall
  | uniswapFundingQuery (numTransfers : Nat)
  | paymentFundingQuery (assetId : Option Nat) (numTransfers : Nat)
deriving Repr, DecidableEq

/-- `const ethTransferEstimate = 21000n * (4n * 10n ** 9n)` — the assumed
cost of one native-asset transfer: 21000 gas at 4 gwei. -/
def ethTransferEstimate : Nat := 21000 * (4 * 10 ^ 9)

/-- Builds the returned funding spec from the per-kind raw `value`:
`fundingThreshold = value`, `toFund = value * (100 + 5 * loops) / 100`
(BigInt division truncates; on non-negative values that is floor division). -/
def mkFundingSpec (value loops : Nat) : FundingSpec :=
  { fundingThreshold := value
    toFund := value * (100 + 5 * loops) / 100 }

/-- Embedding of `getAgentRequiredFunding`.  The JS `switch` on the
`agentType` string is an if-chain on string equality; the `default` branch
throws `Unknown agent type: ...` before any ledger call.  Besides the
`Except` result we record the list of sdk-receiving oracle calls made, to
express the "no ledger I/O" part of the error claim. -/
def getAgentRequiredFunding (costs : AgentCosts) (agentType : String)
    (numAgents numTransfers : Nat) (assetIds : List Nat) (loops : Nat) :
    Except String FundingSpec × List LedgerCall :=
  if agentType = "uniswap" then
    (.ok (mkFundingSpec
        ((ethTransferEstimate + costs.uniswapRequiredFunding numTransfers) * numAgents) loops),
      [.uniswapFundingQuery numTransfers])
  else if agentType = "element" then
    (.ok (mkFundingSpec
        ((ethTransferEstimate + costs.elementRequiredFunding) * numAgents
          + costs.manualPaymentRequiredFunding) loops),
      [])
  else if agentType = "payment" then
    (.ok (mkFundingSpec
        ((ethTransferEstimate + costs.paymentRequiredFunding assetIds.head? numTransfers)
          * numAgents) loops),
      [.paymentFundingQuery assetIds.head? numTransfers])
  else
    (.error ("Unknown agent type: " ++ agentType), [])

/-- The padded top-up never falls below the raw value: core arithmetic fact
behind the `toFund >= fundingThreshold` invariant. -/
theorem le_buffered (value loops : Nat) : value ≤ value * (100 + 5 * loops) / 100 := by
  have h1 : value * 100 ≤ value * (100 + 5 * loops) :=
    Nat.mul_le_mul_left value (by omega)
  calc value = value * 100 / 100 := by
        rw [Nat.mul_div_cancel value (by norm_num)]
    _ ≤ value * (100 + 5 * loops) / 100 := Nat.div_le_div_right h1

/-- Any spec produced by the estimator satisfies `fundingThreshold ≤ toFund`. -/
theorem fundingSpec_threshold_le_toFund (costs : AgentCosts) (agentType : String)
    (numAgents numTransfers : Nat) (assetIds : List Nat) (loops : Nat)
    (fs : FundingSpec)
    (h : (getAgentRequiredFunding costs agentType numAgents numTransfers assetIds loops).1
        = .ok fs) :
    fs.fundingThreshold ≤ fs.toFund := by
  unfold getAgentRequiredFunding at h
  split_ifs at h <;> simp_all [mkFundingSpec] <;>
    (subst h; exact le_buffered _ _)

/-- C2: For every supported workload kind, the estimator returns
`fundingThreshold` equal to the per-kind raw value — for `element`
`(ethTransferEstimate + elementCost) * numAgents + manualPaymentCost`, with
`ethTransferEstimate = 21000 * 4e9` — and `toFund` equal to
`raw * (100 + 5 * loops) / 100` with floor division. -/
theorem estimator_per_kind_values (costs : AgentCosts)
    (numAgents numTransfers : Nat) (assetIds : List Nat) (loops : Nat) :
    ethTransferEstimate = 21000 * (4 * 10 ^ 9) ∧
    (getAgentRequiredFunding costs "element" numAgents numTransfers assetIds loops).1
      = .ok { fundingThreshold :=
                (ethTransferEstimate + costs.elementRequiredFunding) * numAgents
                  + costs.manualPaymentRequiredFunding
              toFund :=
                ((ethTransferEstimate + costs.elementRequiredFunding) * numAgents
                  + costs.manualPaymentRequiredFunding) * (100 + 5 * loops) / 100 } ∧
    (getAgentRequiredFunding costs "uniswap" numAgents numTransfers assetIds loops).1
      = .ok { fundingThreshold :=
                (ethTransferEstimate + costs.uniswapRequiredFunding numTransfers) * numAgents
              toFund :=
                (ethTransferEstimate + costs.uniswapRequiredFunding numTransfers) * numAgents
                  * (100 + 5 * loops) / 100 } ∧
    (getAgentRequiredFunding costs "payment" numAgents numTransfers assetIds loops).1
      = .ok { fundingThreshold :=
                (ethTransferEstimate + costs.paymentRequiredFunding assetIds.head? numTransfers)
                  * numAgents
              toFund :=
                (ethTransferEstimate + costs.paymentRequiredFunding assetIds.head? numTransfers)
                  * numAgents * (100 + 5 * loops) / 100 } := by
  refine ⟨rfl, ?_, ?_, ?_⟩ <;> simp [getAgentRequiredFunding, mkFundingSpec]

/-- C3: For every supported workload kind and every input, the estimator
returns a spec with `toFund ≥ fundingThreshold`, and both amounts are
non-negative integers. -/
theorem estimator_invariant (costs : AgentCosts)
    (numAgents numTransfers : Nat) (assetIds : List Nat) (loops : Nat) :
    ∀ agentType ∈ ["uniswap", "element", "payment"],
      ∃ fs : FundingSpec,
        (getAgentRequiredFunding costs agentType numAgents numTransfers assetIds loops).1
          = .ok fs ∧
        fs.fundingThreshold ≤ fs.toFund ∧
        (0 : Int) ≤ fs.fundingThreshold ∧ (0 : Int) ≤ fs.toFund := by
  intro agentType hmem
  simp only [List.mem_cons, List.mem_singleton] at hmem
  rcases hmem with rfl | rfl | rfl | h
  · exact ⟨mkFundingSpec
        ((ethTransferEstimate + costs.uniswapRequiredFunding numTransfers) * numAgents) loops,
      by simp [getAgentRequiredFunding], le_buffered _ _, by positivity, by positivity⟩
  · exact ⟨mkFundingSpec
        ((ethTransferEstimate + costs.elementRequiredFunding) * numAgents
          + costs.manualPaymentRequiredFunding) loops,
      by simp [getAgentRequiredFunding], le_buffered _ _, by positivity, by positivity⟩
  · exact ⟨mkFundingSpec
        ((ethTransferEstimate + costs.paymentRequiredFunding assetIds.head? numTransfers)
          * numAgents) loops,
      by simp [getAgentRequiredFunding], le_buffered _ _, by positivity, by positivity⟩
  · cases h

/-- Witness for C3: concrete costs, the supported kind `"element"`, two
agents, five transfers, ten loops. -/
theorem estimator_invariant_witness :
    "element" ∈ ["uniswap", "element", "payment"] ∧
    ∃ fs : FundingSpec,
      (getAgentRequiredFunding ⟨fun _ => 0, 7, 3, fun _ _ => 0⟩ "element" 2 5 [0] 10).1
        = .ok fs ∧
      fs.fundingThreshold ≤ fs.toFund ∧
      (0 : Int) ≤ fs.fundingThreshold ∧ (0 : Int) ≤ fs.toFund :=
  ⟨by simp, estimator_invariant ⟨fun _ => 0, 7, 3, fun _ _ => 0⟩ 2 5 [0] 10 "element" (by simp)⟩

/-- C9: For every workload kind outside the three supported ones, the
estimator fails immediately with `Unknown agent type: <kind>` and performs
no ledger I/O (the recorded oracle-call list is empty). -/
theorem estimator_unsupported_kind (costs : AgentCosts) (agentType : String)
    (numAgents numTransfers : Nat) (assetIds : List Nat) (loops : Nat)
    (h1 : agentType ≠ "uniswap") (h2 : agentType ≠ "element") (h3 : agentType ≠ "payment") :
    getAgentRequiredFunding costs agentType numAgents numTransfers assetIds loops
      = (.error ("Unknown agent type: " ++ agentType), []) := by
  simp [getAgentRequiredFunding, h1, h2, h3]

/-- Witness for C9: the unsupported kind `"swap"` fails with the error and
an empty ledger-call list. -/
theorem estimator_unsupported_kind_witness :
    getAgentRequiredFunding
        ⟨fun _ => 0, 0, 0, fun _ _ => 0⟩ "swap" 2 5 [0] 3
      = (.error "Unknown agent type: swap", []) :=
  estimator_unsupported_kind ⟨fun _ => 0, 0, 0, fun _ _ => 0⟩ "swap" 2 5 [0] 3
    (by decide) (by decide) (by decide)

/-! ## Funding guard (the `while` loop at lines 120–133)

```
while ((await sdk.getPublicBalance(0, processAddress)) < fundingThreshold) {
  try {
    const txHash = await asset.transfer(toFund, fundingAddress, processAddress);
    const receipt = await sdk.getTransactionReceipt(txHash);
    if (!receipt.status) throw new Error('receipt status is false.');
    break;
  } catch (err) { log; await sleep(5000); }
}
```

The process address is exclusively owned by this process, so between polls
its balance can only grow (concurrent sibling processes may credit it, never
debit).  Each round of the loop is driven by a `RoundEnv`: the external
credit that arrived since the previous poll, and—if a top-up transfer is
attempted—its outcome.  A successful transfer credits `toFund` to the
process address; a reverted transfer (receipt status false) credits
nothing; a thrown RPC error may or may not have landed the transfer
(`landed`), which is exactly why the loop re-polls before re-attempting. -/

/-- Outcome of one attempted top-up transfer, as observed by this process. -/
inductive TransferOutcome
  | ok
  | failReceipt
  | rpcError (landed : Bool)
deriving Repr, DecidableEq

/-- The environment's behaviour for one round of the funding loop. -/
structure RoundEnv where
  extCredit : Nat
  outcome : TransferOutcome
deriving Repr, DecidableEq

/-- Observable events of the funding loop, in program order. -/
inductive GuardEvent
  | polled (b : Nat)
  | transfer (amount : Nat)
  | receiptOk
  | receiptFail
  | errorCaught
  | slept (ms : Nat)
deriving Repr, DecidableEq

/-- Fuel-indexed embedding of the funding `while` loop.  Arguments after the
environment: remaining fuel, current round index, actual process-address
balance at round entry.  Returns the full event trace and the process
balance at loop exit, or `none` if the fuel is exhausted before the loop
exits (the source loop has no retry-count cap). -/
def ensureFunded (threshold toFund : Nat) (env : Nat → RoundEnv) :
    Nat → Nat → Nat → Option (List GuardEvent × Nat)
  | 0, _, _ => none
  | fuel + 1, round, bal =>
    let b := bal + (env round).extCredit
    if b < threshold then
      match (env round).outcome with
      | .ok => some ([.polled b, .transfer toFund, .receiptOk], b + toFund)
      | .failReceipt =>
        (ensureFunded threshold toFund env fuel (round + 1) b).map
          fun r => (.polled b :: .transfer toFund :: .receiptFail :: .slept 5000 :: r.1, r.2)
      | .rpcError landed =>
        (ensureFunded threshold toFund env fuel (round + 1)
            (if landed then b + toFund else b)).map
          fun r => (.polled b :: .transfer toFund :: .errorCaught :: .slept 5000 :: r.1, r.2)
    else
      some ([.polled b], b)

/-- If the top-up amount covers the threshold, the funding loop exits only
with a balance at or above the threshold. -/
theorem ensureFunded_exit_ge (threshold toFund : Nat) (hle : threshold ≤ toFund)
    (env : Nat → RoundEnv) :
    ∀ fuel round bal tr fb,
      ensureFunded threshold toFund env fuel round bal = some (tr, fb) →
      threshold ≤ fb := by
  intro fuel
  induction fuel with
  | zero => intro round bal tr fb h; simp [ensureFunded] at h
  | succ n ih =>
    intro round bal tr fb h
    rw [ensureFunded] at h
    by_cases hb : bal + (env round).extCredit < threshold
    · rw [if_pos hb] at h
      rcases ho : (env round).outcome with _ | _ | landed <;> simp only [ho] at h
      · simp only [Option.some.injEq, Prod.mk.injEq] at h
        omega
      · rcases hrec : ensureFunded threshold toFund env n (round + 1)
            (bal + (env round).extCredit) with _ | ⟨tr', fb'⟩ <;>
          rw [hrec] at h <;> simp at h
        rcases h with ⟨-, h2⟩
        exact h2 ▸ ih _ _ _ _ hrec
      · rcases hrec : ensureFunded threshold toFund env n (round + 1)
            (if landed then bal + (env round).extCredit + toFund
              else bal + (env round).extCredit) with _ | ⟨tr', fb'⟩ <;>
          rw [hrec] at h <;> simp at h
        rcases h with ⟨-, h2⟩
        exact h2 ▸ ih _ _ _ _ hrec
    · rw [if_neg hb] at h
      simp only [Option.some.injEq, Prod.mk.injEq] at h
      omega

/-- C1: The funding loop returns only once the process account's balance
meets the threshold of the spec produced by the estimator (whose top-up
amount always covers its threshold); and it has no retry-count cap — under
an environment that stays below threshold and always fails the transfer,
no amount of fuel makes the loop exit. -/
theorem funding_guard_exit_threshold :
    (∀ (costs : AgentCosts) (agentType : String)
        (numAgents numTransfers : Nat) (assetIds : List Nat) (loops : Nat)
        (fs : FundingSpec) (env : Nat → RoundEnv) (fuel round bal : Nat)
        (tr : List GuardEvent) (fb : Nat),
      (getAgentRequiredFunding costs agentType numAgents numTransfers assetIds loops).1
          = .ok fs →
      ensureFunded fs.fundingThreshold fs.toFund env fuel round bal = some (tr, fb) →
      fs.fundingThreshold ≤ fb) ∧
    (∀ fuel round,
      ensureFunded 1 1 (fun _ => ⟨0, .failReceipt⟩) fuel round 0 = none) := by
  constructor
  · intro costs agentType numAgents numTransfers assetIds loops fs env fuel round bal tr fb
      hok hrun
    exact ensureFunded_exit_ge _ _
      (fundingSpec_threshold_le_toFund costs agentType numAgents numTransfers assetIds loops
        fs hok) env fuel round bal tr fb hrun
  · intro fuel
    induction fuel with
    | zero => intro round; simp [ensureFunded]
    | succ n ih => intro round; simp [ensureFunded, ih]

/-- Witness for C1: a concrete estimator run (`payment`, zero agents) gives
threshold 0, and a one-fuel guard run exits immediately at balance 0, which
meets the threshold; the cap-free conjunct is checked at fuel 3. -/
theorem funding_guard_exit_threshold_witness :
    (getAgentRequiredFunding ⟨fun _ => 0, 0, 0, fun _ _ => 0⟩ "payment" 0 5 [0] 10).1
        = .ok (mkFundingSpec 0 10) ∧
    ensureFunded (mkFundingSpec 0 10).fundingThreshold (mkFundingSpec 0 10).toFund
        (fun _ => ⟨0, .ok⟩) 1 0 0 = some ([.polled 0], 0) ∧
    (mkFundingSpec 0 10).fundingThreshold ≤ 0 ∧
    ensureFunded 1 1 (fun _ => ⟨0, .failReceipt⟩) 3 0 0 = none := by
  refine ⟨by simp [getAgentRequiredFunding, mkFundingSpec], rfl, ?_, ?_⟩
  · exact funding_guard_exit_threshold.1 ⟨fun _ => 0, 0, 0, fun _ _ => 0⟩ "payment" 0 5 [0] 10
      (mkFundingSpec 0 10) (fun _ => ⟨0, .ok⟩) 1 0 0 [.polled 0] 0
      (by simp [getAgentRequiredFunding, mkFundingSpec]) rfl
  · exact funding_guard_exit_threshold.2 3 0

/-- The event the catch block records for a failed attempt: a receipt with
failure status raises the in-loop `receipt status is false` error, any
other rejection (RPC failure, timeout) arrives as the thrown error itself. -/
def caughtEvent : TransferOutcome → GuardEvent
  | .rpcError _ => .errorCaught
  | _ => .receiptFail

/-- The process balance after a failed attempt: a reverted transfer
(failure-status receipt) credits nothing, and a thrown RPC error credits
`toFund` exactly when the transfer nevertheless landed. -/
def postErrorBal (toFund b : Nat) : TransferOutcome → Nat
  | .rpcError true => b + toFund
  | _ => b

/-- C7: On any transient funding error — a receipt with failure status, or
a thrown RPC failure/timeout whether or not the transfer landed — the loop
catches the error (never surfacing it), logs, sleeps the fixed 5-second
backoff, re-polls the balance, and retries the whole attempt: when the
first attempt fails with any non-ok outcome and the second attempt
succeeds (balance below threshold at both polls), the loop runs exactly
one backoff cycle between the two attempts and exits normally with the
trace `poll, transfer, caught error, sleep 5000ms, poll, transfer, ok`. -/
theorem funding_guard_transient_backoff (threshold toFund : Nat) (env : Nat → RoundEnv)
    (round bal fuel : Nat)
    (ho0 : (env round).outcome ≠ .ok)
    (hb0 : bal + (env round).extCredit < threshold)
    (ho1 : (env (round + 1)).outcome = .ok)
    (hb1 : postErrorBal toFund (bal + (env round).extCredit) (env round).outcome
        + (env (round + 1)).extCredit < threshold) :
    ensureFunded threshold toFund env (fuel + 2) round bal =
      some ([.polled (bal + (env round).extCredit), .transfer toFund,
              caughtEvent (env round).outcome, .slept 5000,
              .polled (postErrorBal toFund (bal + (env round).extCredit) (env round).outcome
                + (env (round + 1)).extCredit),
              .transfer toFund, .receiptOk],
            postErrorBal toFund (bal + (env round).extCredit) (env round).outcome
              + (env (round + 1)).extCredit + toFund) := by
  have hfuel : fuel + 2 = (fuel + 1) + 1 := rfl
  rw [hfuel, ensureFunded, if_pos hb0]
  rcases ho : (env round).outcome with _ | _ | landed
  · exact absurd ho ho0
  · rw [ho] at hb1
    simp only [postErrorBal] at hb1
    simp only [ho]
    rw [ensureFunded, if_pos hb1]
    simp only [ho1, Option.map_some']
    simp [postErrorBal, caughtEvent, ho]
  · rw [ho] at hb1
    cases landed
    · simp only [postErrorBal] at hb1
      simp only [ho]
      rw [ensureFunded, if_pos (by simpa using hb1)]
      simp only [ho1, Option.map_some']
      simp [postErrorBal, caughtEvent, ho]
    · simp only [postErrorBal] at hb1
      simp only [ho]
      rw [ensureFunded, if_pos (by simpa using hb1)]
      simp only [ho1, Option.map_some']
      simp [postErrorBal, caughtEvent, ho]

/-- Witness for C7, one conjunct per transient error shape: a failed-status
receipt, a thrown RPC error whose transfer did not land, and a thrown
timeout whose transfer did land (crediting the top-up); each shows exactly
one `slept 5000` between the two attempts and a normal exit. -/
theorem funding_guard_transient_backoff_witness :
    ensureFunded 10 10 (fun r => if r = 0 then ⟨0, .failReceipt⟩ else ⟨3, .ok⟩) 2 0 0 =
      some ([.polled 0, .transfer 10, .receiptFail, .slept 5000,
              .polled 3, .transfer 10, .receiptOk], 13) ∧
    ensureFunded 10 10 (fun r => if r = 0 then ⟨0, .rpcError false⟩ else ⟨3, .ok⟩) 2 0 0 =
      some ([.polled 0, .transfer 10, .errorCaught, .slept 5000,
              .polled 3, .transfer 10, .receiptOk], 13) ∧
    ensureFunded 30 10 (fun r => if r = 0 then ⟨0, .rpcError true⟩ else ⟨3, .ok⟩) 2 0 0 =
      some ([.polled 0, .transfer 10, .errorCaught, .slept 5000,
              .polled 13, .transfer 10, .receiptOk], 23) :=
  ⟨funding_guard_transient_backoff 10 10
      (fun r => if r = 0 then ⟨0, .failReceipt⟩ else ⟨3, .ok⟩) 0 0 0
      (by decide) (by decide) (by decide) (by decide),
    funding_guard_transient_backoff 10 10
      (fun r => if r = 0 then ⟨0, .rpcError false⟩ else ⟨3, .ok⟩) 0 0 0
      (by decide) (by decide) (by decide) (by decide),
    funding_guard_transient_backoff 30 10
      (fun r => if r = 0 then ⟨0, .rpcError true⟩ else ⟨3, .ok⟩) 0 0 0
      (by decide) (by decide) (by decide) (by decide)⟩

/-- `true` exactly when the event is a transfer submission. -/
def GuardEvent.isTransfer : GuardEvent → Bool
  | .transfer _ => true
  | _ => false

/-- Scans a guard trace with a flag recording whether the previous event was
a balance poll that read below the threshold; a transfer event is accepted
only under that flag. -/
def transfersGuardedAux (threshold : Nat) : Bool → List GuardEvent → Bool
  | _, [] => true
  | prevOk, .transfer _ :: rest => prevOk && transfersGuardedAux threshold false rest
  | _, .polled b :: rest => transfersGuardedAux threshold (decide (b < threshold)) rest
  | _, _ :: rest => transfersGuardedAux threshold false rest

/-- Every transfer event in the trace is immediately preceded by a poll that
read a balance below the threshold. -/
def transfersGuarded (threshold : Nat) (tr : List GuardEvent) : Bool :=
  transfersGuardedAux threshold false tr

/-- Any trace the funding loop produces passes the `transfersGuarded` scan,
whatever the incoming flag. -/
theorem ensureFunded_transfersGuardedAux (threshold toFund : Nat) (env : Nat → RoundEnv) :
    ∀ fuel round bal tr fb,
      ensureFunded threshold toFund env fuel round bal = some (tr, fb) →
      ∀ p, transfersGuardedAux threshold p tr = true := by
  intro fuel
  induction fuel with
  | zero => intro round bal tr fb h; simp [ensureFunded] at h
  | succ n ih =>
    intro round bal tr fb h
    rw [ensureFunded] at h
    by_cases hb : bal + (env round).extCredit < threshold
    · rw [if_pos hb] at h
      rcases ho : (env round).outcome with _ | _ | landed <;> simp only [ho] at h
      · simp only [Option.some.injEq, Prod.mk.injEq] at h
        obtain ⟨h1, -⟩ := h
        subst h1
        intro p
        simp [transfersGuardedAux, hb]
      · rcases hrec : ensureFunded threshold toFund env n (round + 1)
            (bal + (env round).extCredit) with _ | ⟨tr', fb'⟩
        · rw [hrec] at h; simp at h
        · rw [hrec] at h
          simp only [Option.map_some', Option.some.injEq, Prod.mk.injEq] at h
          obtain ⟨h1, -⟩ := h
          subst h1
          intro p
          simp [transfersGuardedAux, hb, ih _ _ _ _ hrec]
      · rcases hrec : ensureFunded threshold toFund env n (round + 1)
            (if landed then bal + (env round).extCredit + toFund
              else bal + (env round).extCredit) with _ | ⟨tr', fb'⟩
        · rw [hrec] at h; simp at h
        · rw [hrec] at h
          simp only [Option.map_some', Option.some.injEq, Prod.mk.injEq] at h
          obtain ⟨h1, -⟩ := h
          subst h1
          intro p
          simp [transfersGuardedAux, hb, ih _ _ _ _ hrec]
    · rw [if_neg hb] at h
      simp only [Option.some.injEq, Prod.mk.injEq] at h
      obtain ⟨h1, -⟩ := h
      subst h1
      intro p
      simp [transfersGuardedAux]

/-- C8: the funding loop never issues a top-up unless the immediately
preceding poll read below threshold: (1) every produced trace passes the
`transfersGuarded` scan; (2) if the first poll already meets the threshold
the loop exits at once with a single poll event and zero transfers; (3) if
an external credit pushes the balance past the threshold during the backoff
after a failed attempt, the next poll exits the loop with no further
transfer event. -/
theorem funding_guard_no_redundant_transfer :
    (∀ (threshold toFund : Nat) (env : Nat → RoundEnv) (fuel round bal : Nat)
        (tr : List GuardEvent) (fb : Nat),
      ensureFunded threshold toFund env fuel round bal = some (tr, fb) →
      transfersGuarded threshold tr = true) ∧
    (∀ (threshold toFund : Nat) (env : Nat → RoundEnv) (fuel round bal : Nat),
      threshold ≤ bal + (env round).extCredit →
      ensureFunded threshold toFund env (fuel + 1) round bal =
        some ([.polled (bal + (env round).extCredit)], bal + (env round).extCredit)) ∧
    (∀ (threshold toFund : Nat) (env : Nat → RoundEnv) (fuel round bal : Nat),
      (env round).outcome = .failReceipt →
      bal + (env round).extCredit < threshold →
      threshold ≤ bal + (env round).extCredit + (env (round + 1)).extCredit →
      ensureFunded threshold toFund env (fuel + 2) round bal =
        some ([.polled (bal + (env round).extCredit), .transfer toFund, .receiptFail,
                .slept 5000,
                .polled (bal + (env round).extCredit + (env (round + 1)).extCredit)],
              bal + (env round).extCredit + (env (round + 1)).extCredit)) := by
  refine ⟨?_, ?_, ?_⟩
  · intro threshold toFund env fuel round bal tr fb h
    exact ensureFunded_transfersGuardedAux threshold toFund env fuel round bal tr fb h false
  · intro threshold toFund env fuel round bal h
    rw [ensureFunded, if_neg (not_lt.mpr h)]
  · intro threshold toFund env fuel round bal ho0 hb0 hb1
    have hfuel : fuel + 2 = (fuel + 1) + 1 := rfl
    rw [hfuel, ensureFunded, if_pos hb0]
    simp only [ho0]
    rw [ensureFunded, if_neg (not_lt.mpr hb1)]
    simp only [Option.map_some']

/-- Witness for C8: (1) a concrete successful-funding trace passes the
scan; (2) an initially funded account yields a single poll and no transfer;
(3) an external credit of 30 arriving during the backoff makes the next
poll exit without a second transfer. -/
theorem funding_guard_no_redundant_transfer_witness :
    transfersGuarded 10 [.polled 0, .transfer 10, .receiptOk] = true ∧
    ensureFunded 5 5 (fun _ => ⟨7, .ok⟩) 1 0 0 = some ([.polled 7], 7) ∧
    ensureFunded 10 10 (fun r => if r = 0 then ⟨0, .failReceipt⟩ else ⟨30, .ok⟩) 2 0 0 =
      some ([.polled 0, .transfer 10, .receiptFail, .slept 5000, .polled 30], 30) := by
  refine ⟨?_, ?_, ?_⟩
  · exact funding_guard_no_redundant_transfer.1 10 10 (fun _ => ⟨0, .ok⟩) 1 0 0
      [.polled 0, .transfer 10, .receiptOk] 10 rfl
  · exact funding_guard_no_redundant_transfer.2.1 5 5 (fun _ => ⟨7, .ok⟩) 0 0 0 (by decide)
  · exact funding_guard_no_redundant_transfer.2.2 10 10
      (fun r => if r = 0 then ⟨0, .failReceipt⟩ else ⟨30, .ok⟩) 0 0 0
      (by decide) (by decide) (by decide)

/-! ## Run driver loop (line 105) and teardown refund (lines 157–165)

```
for (let runNumber = 0; runNumber !== loops; ++runNumber) {
  // compute budget, funding guard, build agent manager, await run, log timing
}
const fee = toBaseUnits('420', 12);
const value = (await sdk.getPublicBalance(0, processAddress)) - fee;
if (value > 0) {
  const txHash = await asset.transfer(value, processAddress, fundingAddress);
  await sdk.getTransactionReceipt(txHash);
}
await sdk.destroy();
```

`loops` is an optional JS number: `none` models `undefined` (the loop guard
`runNumber !== loops` is then always true), `some l` a supplied integer
value, which may be negative.  The loop body is abstracted to its ordered
observable steps per iteration.  The refund tail has no try/catch: a
rejected transfer or receipt await propagates out of `run` before
`sdk.destroy()`. -/

/-- Observable events of one `run` invocation, in program order. -/
inductive RunEvent
  | iterStart (i : Nat)
  | budget (i : Nat)
  | fundingCheck (i : Nat)
  | batch (i : Nat)
  | refundTx (amount : Nat)
  | destroy
deriving Repr, DecidableEq

/-- The ordered observable steps of iteration `i`: the banner, the budget
recomputation, the funding guard, then the awaited agent batch. -/
def iterEvents (i : Nat) : List RunEvent :=
  [.iterStart i, .budget i, .fundingCheck i, .batch i]

/-- The `for` guard `runNumber !== loops`: always true against `undefined`,
otherwise a strict disequality test. -/
def loopContinue (loops : Option Int) (runNumber : Nat) : Bool :=
  match loops with
  | none => true
  | some l => (runNumber : Int) != l

/-- Fuel-indexed embedding of the iteration `for` loop, returning the event
trace of all iterations, or `none` if the fuel runs out before the guard
turns false. -/
def runLoop (loops : Option Int) : Nat → Nat → Option (List RunEvent)
  | 0, _ => none
  | fuel + 1, runNumber =>
    if loopContinue loops runNumber then
      (runLoop loops fuel (runNumber + 1)).map (iterEvents runNumber ++ ·)
    else
      some []

/-- `const fee = toBaseUnits('420', 12)` — the reserve withheld from the
refund: 420 units of 10^12 wei. -/
def refundReserve : Nat := 420 * 10 ^ 12

/-- `value = balance - fee; if (value > 0) transfer(value, ...)`: the amount
the teardown transfers back, `none` when no transfer occurs (the BigInt
subtraction may be negative, hence the `Int` intermediate). -/
def refundTransferValue (bal : Nat) : Option Nat :=
  let value : Int := (bal : Int) - (refundReserve : Int)
  if 0 < value then some value.toNat else none

/-- Outcome of the awaited refund transfer and its receipt: the receipt's
status field is not inspected by the source, but the awaits can reject. -/
inductive RefundOutcome
  | receiptOk
  | receiptFail
  | thrown (msg : String)
deriving Repr, DecidableEq

/-- `true` exactly when the refund transfer/receipt await rejects. -/
def RefundOutcome.isThrown : RefundOutcome → Bool
  | .thrown _ => true
  | _ => false

/-- The tail of `run` after the iteration loop: refund attempt then
`sdk.destroy()`.  There is no try/catch, so a rejected refund await
propagates as an error before `destroy` is reached; a receipt with failure
status is not checked and does not stop the tail. -/
def teardown (bal : Nat) (outcome : RefundOutcome) : Except String (List RunEvent) :=
  match refundTransferValue bal with
  | some v =>
    match outcome with
    | .thrown msg => .error msg
    | _ => .ok [.refundTx v, .destroy]
  | none => .ok [.destroy]

/-- The whole of `run` after startup: the iteration loop followed by the
teardown tail, given the process balance observed after the loop. -/
def runTrace (loops : Option Int) (fuel : Nat) (finalBal : Nat)
    (outcome : RefundOutcome) : Option (Except String (List RunEvent)) :=
  (runLoop loops fuel 0).map fun tr =>
    match teardown finalBal outcome with
    | .ok evs => .ok (tr ++ evs)
    | .error msg => .error msg

/-- The indices of the iterations recorded in a trace. -/
def iterIndices (tr : List RunEvent) : List Nat :=
  tr.filterMap fun e =>
    match e with
    | .iterStart i => some i
    | _ => none

/-- Closed form of the iteration loop for a supplied loop count `N`:
starting from `runNumber = n ≤ N` with enough fuel, the loop runs the
iterations `n, n+1, …, N-1` in order. -/
theorem runLoop_closed_form (N : Nat) :
    ∀ fuel n, n ≤ N → N - n < fuel →
      runLoop (some (N : Int)) fuel n = some ((List.range' n (N - n)).flatMap iterEvents) := by
  intro fuel
  induction fuel with
  | zero => intro n _ h; omega
  | succ f ih =>
    intro n hn hfuel
    rw [runLoop]
    by_cases he : n = N
    · subst he
      have hc : loopContinue (some (n : Int)) n = false := by
        simp [loopContinue]
      rw [hc]
      simp
    · have hc : loopContinue (some (N : Int)) n = true := by
        simp only [loopContinue, bne_iff_ne, ne_eq]
        exact_mod_cast he
      rw [hc]
      simp only [if_true]
      rw [ih (n + 1) (by omega) (by omega)]
      have hrange : List.range' n (N - n) = n :: List.range' (n + 1) (N - (n + 1)) := by
        have h1 : N - n = (N - (n + 1)) + 1 := by omega
        rw [h1, List.range'_succ]
      rw [hrange, List.flatMap_cons, Option.map_some']

/-- A flatMap of per-iteration events records exactly the given indices. -/
theorem iterIndices_flatMap (l : List Nat) :
    iterIndices (l.flatMap iterEvents) = l := by
  induction l with
  | nil => rfl
  | cons a rest ih =>
    rw [List.flatMap_cons]
    simp only [iterIndices, List.filterMap_append] at ih ⊢
    rw [ih]
    rfl

/-- Inside the events of any recorded iteration, the funding check
immediately precedes the batch execution. -/
theorem fundingCheck_before_batch (l : List Nat) :
    ∀ i ∈ l, ∃ left right,
      l.flatMap iterEvents = left ++ [.fundingCheck i, .batch i] ++ right := by
  induction l with
  | nil => intro i h; cases h
  | cons a rest ih =>
    intro i hi
    rw [List.flatMap_cons]
    rcases List.mem_cons.mp hi with rfl | hmem
    · exact ⟨[.iterStart i, .budget i], rest.flatMap iterEvents, rfl⟩
    · obtain ⟨left, right, heq⟩ := ih i hmem
      exact ⟨iterEvents a ++ left, right, by rw [heq]; simp⟩

/-- C4: With a supplied loop count `N`, the driver executes exactly `N`
iterations labeled by the strictly increasing zero-based indices `0..N-1`
(`List.range N`); within every iteration the funding check immediately
precedes that iteration's batch execution; and the teardown (refund) events
follow all iteration events. -/
theorem run_driver_iterations (N fuel : Nat) (hfuel : N < fuel) :
    runLoop (some (N : Int)) fuel 0 = some ((List.range N).flatMap iterEvents) ∧
    iterIndices ((List.range N).flatMap iterEvents) = List.range N ∧
    (∀ i < N, ∃ left right,
      (List.range N).flatMap iterEvents = left ++ [.fundingCheck i, .batch i] ++ right) ∧
    (∀ (finalBal : Nat) (outcome : RefundOutcome) (tail : List RunEvent),
      teardown finalBal outcome = .ok tail →
      runTrace (some (N : Int)) fuel finalBal outcome
        = some (.ok ((List.range N).flatMap iterEvents ++ tail))) := by
  have hclosed : runLoop (some (N : Int)) fuel 0
      = some ((List.range N).flatMap iterEvents) := by
    have h := runLoop_closed_form N fuel 0 (Nat.zero_le N) (by omega)
    rwa [Nat.sub_zero, ← List.range_eq_range'] at h
  refine ⟨hclosed, iterIndices_flatMap _, ?_, ?_⟩
  · intro i hi
    exact fundingCheck_before_batch (List.range N) i (List.mem_range.mpr hi)
  · intro finalBal outcome tail hok
    rw [runTrace, hclosed, Option.map_some', hok]

/-- Witness for C4: three iterations at fuel 4, with a post-loop balance of
0 so that the teardown is a bare `destroy`. -/
theorem run_driver_iterations_witness :
    runLoop (some ((3 : Nat) : Int)) 4 0 = some ((List.range 3).flatMap iterEvents) ∧
    iterIndices ((List.range 3).flatMap iterEvents) = List.range 3 ∧
    (∀ i < 3, ∃ left right,
      (List.range 3).flatMap iterEvents = left ++ [.fundingCheck i, .batch i] ++ right) ∧
    (∀ (finalBal : Nat) (outcome : RefundOutcome) (tail : List RunEvent),
      teardown finalBal outcome = .ok tail →
      runTrace (some ((3 : Nat) : Int)) 4 finalBal outcome
        = some (.ok ((List.range 3).flatMap iterEvents ++ tail))) :=
  run_driver_iterations 3 4 (by norm_num)

/-- C10: The iteration loop ends after exactly `loops` iterations only for a
non-negative integer `loops`: since the guard is the strict disequality
`runNumber !== loops` with `runNumber` starting at 0 and stepping by 1, a
negative `loops` value is never reached, the loop never exits under any
fuel, and the refund and session-teardown tail is never produced; a
non-negative `loops = N` exits after exactly the iterations `0..N-1`. -/
theorem run_loop_negative_never_terminates :
    (∀ l : Int, l < 0 → ∀ fuel n, runLoop (some l) fuel n = none) ∧
    (∀ (l : Int), l < 0 → ∀ (fuel finalBal : Nat) (outcome : RefundOutcome),
      runTrace (some l) fuel finalBal outcome = none) ∧
    (∀ (N fuel : Nat), N < fuel →
      runLoop (some (N : Int)) fuel 0 = some ((List.range N).flatMap iterEvents)) := by
  have hloop : ∀ l : Int, l < 0 → ∀ fuel n, runLoop (some l) fuel n = none := by
    intro l hl fuel
    induction fuel with
    | zero => intro n; rfl
    | succ f ih =>
      intro n
      have hc : loopContinue (some l) n = true := by
        simp only [loopContinue, bne_iff_ne, ne_eq]
        omega
      rw [runLoop, hc, if_pos rfl, ih (n + 1), Option.map_none']
  refine ⟨hloop, ?_, ?_⟩
  · intro l hl fuel finalBal outcome
    rw [runTrace, hloop l hl fuel 0, Option.map_none']
  · intro N fuel hfuel
    have h := runLoop_closed_form N fuel 0 (Nat.zero_le N) (by omega)
    rwa [Nat.sub_zero, ← List.range_eq_range'] at h

/-- Witness for C10: with `loops = -1` and fuel 5 the loop is still running
and no refund/destroy event exists; with `loops = 2` and fuel 3 it has
finished both iterations. -/
theorem run_loop_negative_never_terminates_witness :
    runLoop (some (-1 : Int)) 5 0 = none ∧
    runTrace (some (-1 : Int)) 5 0 .receiptOk = none ∧
    runLoop (some ((2 : Nat) : Int)) 3 0 = some ((List.range 2).flatMap iterEvents) :=
  ⟨run_loop_negative_never_terminates.1 (-1) (by norm_num) 5 0,
    run_loop_negative_never_terminates.2.1 (-1) (by norm_num) 5 0 .receiptOk,
    run_loop_negative_never_terminates.2.2 2 3 (by norm_num)⟩

/-- C5: The teardown computes `value = balance − reserve` with the reserve
fixed at `420 × 10^12` wei and transfers exactly `value` if and only if it
is positive: a transfer of `balance − reserve` occurs when
`balance > reserve` and none otherwise; in units of `10^12` wei, balance
1000 yields a transfer of exactly 580 and balance 300 yields none. -/
theorem teardown_refund_value (bal : Nat) (hgt : refundReserve < bal) :
    refundReserve = 420 * 10 ^ 12 ∧
    refundTransferValue bal = some (bal - refundReserve) ∧
    (∀ b : Nat, b ≤ refundReserve → refundTransferValue b = none) ∧
    (∀ outcome : RefundOutcome, outcome.isThrown = false →
      teardown bal outcome = .ok [.refundTx (bal - refundReserve), .destroy]) ∧
    refundTransferValue (1000 * 10 ^ 12) = some (580 * 10 ^ 12) ∧
    refundTransferValue (300 * 10 ^ 12) = none := by
  have hsome : refundTransferValue bal = some (bal - refundReserve) := by
    simp only [refundTransferValue]
    rw [if_pos (by omega : (0 : Int) < (bal : Int) - (refundReserve : Int))]
    have htn : ((bal : Int) - (refundReserve : Int)).toNat = bal - refundReserve := by omega
    rw [htn]
  refine ⟨rfl, hsome, ?_, ?_, by decide, by decide⟩
  · intro b hb
    simp only [refundTransferValue]
    rw [if_neg (by omega : ¬ (0 : Int) < (b : Int) - (refundReserve : Int))]
  · intro outcome hout
    rw [teardown, hsome]
    cases outcome with
    | receiptOk => rfl
    | receiptFail => rfl
    | thrown msg => simp [RefundOutcome.isThrown] at hout

/-- Witness for C5: balance 1000 units (`10^15` wei) exceeds the reserve,
the transfer is exactly 580 units, and a small balance yields no transfer. -/
theorem teardown_refund_value_witness :
    refundReserve = 420 * 10 ^ 12 ∧
    refundTransferValue (1000 * 10 ^ 12) = some (1000 * 10 ^ 12 - refundReserve) ∧
    (∀ b : Nat, b ≤ refundReserve → refundTransferValue b = none) ∧
    (∀ outcome : RefundOutcome, outcome.isThrown = false →
      teardown (1000 * 10 ^ 12) outcome
        = .ok [.refundTx (1000 * 10 ^ 12 - refundReserve), .destroy]) ∧
    refundTransferValue (1000 * 10 ^ 12) = some (580 * 10 ^ 12) ∧
    refundTransferValue (300 * 10 ^ 12) = none :=
  teardown_refund_value (1000 * 10 ^ 12) (by norm_num [refundReserve])

/-- `true` exactly when the run tail reached `sdk.destroy()`. -/
def destroyCalled (r : Except String (List RunEvent)) : Bool :=
  match r with
  | .ok evs => evs.contains .destroy
  | .error _ => false

/-- Counterexample to C6: with a post-loop balance of 1000 units the refund
transfer is attempted, and if its await rejects the error propagates out of
`run` — `sdk.destroy()` is never reached, so a failure of the refund
transfer does prevent session teardown. -/
theorem teardown_thrown_skips_destroy :
    teardown (1000 * 10 ^ 12) (.thrown "transfer rejected")
        = .error "transfer rejected" ∧
    destroyCalled (teardown (1000 * 10 ^ 12) (.thrown "transfer rejected")) = false := by
  constructor <;> rfl

/-- C6 (amended): `sdk.destroy()` is reached at the very end of `run`
whenever the refund attempt does not throw — in particular a refund receipt
with failure status does not prevent teardown, a non-positive refund value
skips the transfer but still destroys, and this holds after any supplied
number of iterations; but if the refund transfer await throws, the error
propagates and `destroy` is not reached. -/
theorem teardown_destroy_unless_thrown :
    (∀ (bal : Nat) (outcome : RefundOutcome), outcome.isThrown = false →
      ∃ pre, teardown bal outcome = .ok (pre ++ [.destroy])) ∧
    (∀ (bal : Nat) (msg : String), refundReserve < bal →
      teardown bal (.thrown msg) = .error msg) ∧
    (∀ (bal : Nat) (msg : String), bal ≤ refundReserve →
      teardown bal (.thrown msg) = .ok [.destroy]) ∧
    (∀ (N fuel finalBal : Nat) (outcome : RefundOutcome), N < fuel →
      outcome.isThrown = false →
      ∃ pre, runTrace (some (N : Int)) fuel finalBal outcome
        = some (.ok (pre ++ [.destroy]))) := by
  have hshape : ∀ (bal : Nat) (outcome : RefundOutcome), outcome.isThrown = false →
      ∃ pre, teardown bal outcome = .ok (pre ++ [.destroy]) := by
    intro bal outcome hout
    rcases hv : refundTransferValue bal with _ | v
    · exact ⟨[], by rw [teardown, hv]; rfl⟩
    · refine ⟨[.refundTx v], ?_⟩
      rw [teardown, hv]
      cases outcome with
      | receiptOk => rfl
      | receiptFail => rfl
      | thrown msg => simp [RefundOutcome.isThrown] at hout
  refine ⟨hshape, ?_, ?_, ?_⟩
  · intro bal msg hgt
    rw [teardown]
    rcases hv : refundTransferValue bal with _ | v
    · exfalso
      simp only [refundTransferValue] at hv
      rw [if_pos (by omega : (0 : Int) < (bal : Int) - (refundReserve : Int))] at hv
      cases hv
    · rfl
  · intro bal msg hle
    rw [teardown]
    rcases hv : refundTransferValue bal with _ | v
    · rfl
    · exfalso
      simp only [refundTransferValue] at hv
      rw [if_neg (by omega : ¬ (0 : Int) < (bal : Int) - (refundReserve : Int))] at hv
      cases hv
  · intro N fuel finalBal outcome hfuel hout
    obtain ⟨pre, hok⟩ := hshape finalBal outcome hout
    have hclosed : runLoop (some (N : Int)) fuel 0
        = some ((List.range N).flatMap iterEvents) := by
      have h := runLoop_closed_form N fuel 0 (Nat.zero_le N) (by omega)
      rwa [Nat.sub_zero, ← List.range_eq_range'] at h
    refine ⟨(List.range N).flatMap iterEvents ++ pre, ?_⟩
    rw [runTrace, hclosed, Option.map_some', hok, List.append_assoc]

/-- Witness for C6 (amended): a failed-status receipt still reaches
`destroy` at balance 1000 units after 2 iterations; a thrown refund at the
same balance errors out; a below-reserve balance with a thrown outcome is
irrelevant since no transfer is attempted. -/
theorem teardown_destroy_unless_thrown_witness :
    (∃ pre, teardown (1000 * 10 ^ 12) .receiptFail = .ok (pre ++ [.destroy])) ∧
    teardown (1000 * 10 ^ 12) (.thrown "boom") = .error "boom" ∧
    teardown (300 * 10 ^ 12) (.thrown "boom") = .ok [.destroy] ∧
    (∃ pre, runTrace (some ((2 : Nat) : Int)) 3 (1000 * 10 ^ 12) .receiptFail
      = some (.ok (pre ++ [.destroy]))) :=
  ⟨teardown_destroy_unless_thrown.1 (1000 * 10 ^ 12) .receiptFail rfl,
    teardown_destroy_unless_thrown.2.1 (1000 * 10 ^ 12) "boom" (by norm_num [refundReserve]),
    teardown_destroy_unless_thrown.2.2.1 (300 * 10 ^ 12) "boom" (by norm_num [refundReserve]),
    teardown_destroy_unless_thrown.2.2.2 2 3 (1000 * 10 ^ 12) .receiptFail (by norm_num) rfl⟩

end Wasabi
